import Mathlib

/-!
Shallow embedding of the Cloudflare Worker in `src/index.ts` of the
`reproduction-vite` repository.

The worker is a request router in front of a managed sandbox SDK.  Its
module-level state is a set of initialized sandbox ids, an append-only
in-memory log buffer, and a nullable promise resolver for the Vite-ready
signal.  The fetch handler first tries `proxyToSandbox`; when that declines
it dispatches on the pathname to the ws-url, root, test-hmr, logs-stream
and preview routes, falling through to a 404.

SDK calls (`listProcesses`, `killProcess`, `writeFile`, `exec`,
`startProcess`, `streamProcessLogs`, `containerFetch`, `env.ASSETS.fetch`)
are modelled by an oracle that fixes each call outcome; the handler is a
pure function from the worker state, the request and the oracle to the new
state, the ordered trace of issued calls, and the response.
-/

/-- `pat` occurs at the head of `s` (on character lists). -/
def startsWithChars : List Char → List Char → Bool
  | _, [] => true
  | [], _ :: _ => false
  | a :: as, b :: bs => a == b && startsWithChars as bs

/-- `pat` occurs somewhere in `s` (on character lists). -/
def hasSub : List Char → List Char → Bool
  | [], pat => pat.isEmpty
  | s@(_ :: rest), pat => startsWithChars s pat || hasSub rest pat

/-- JS `s.includes(pat)`: `pat` occurs as a substring of `s`. -/
def strIncludes (s pat : String) : Bool :=
  hasSub s.data pat.data

/-- Split a character list at every `/` (the pathname segment structure the
anchored route regexes inspect). -/
def splitSlash : List Char → List (List Char)
  | [] => [[]]
  | c :: cs =>
    let r := splitSlash cs
    if c = '/' then [] :: r
    else
      match r with
      | [] => [[c]]
      | h :: t => (c :: h) :: t

/-- A JSON-ish value, enough for the response bodies this worker builds. -/
inductive JVal where
  | s (v : String)
  | i (v : Int)
  | b (v : Bool)
deriving DecidableEq, Repr

/-- Body of a `Response`: plain text, a JSON object (ordered field list),
or a server-sent-events stream (modelled separately by `sseStart`/`ssePoll`). -/
inductive RespBody where
  | text (v : String)
  | json (fields : List (String × JVal))
  | sse
deriving DecidableEq, Repr

/-- An HTTP response: status code and body. -/
structure Resp where
  status : Nat
  body : RespBody
deriving DecidableEq, Repr

/-- One process entry returned by `sandbox.listProcesses()`; `command` is
optional (the source reads it with optional chaining `p.command?.`). -/
structure ProcessInfo where
  id : String
  command : Option String
deriving DecidableEq, Repr

/-- A call the worker issues to the platform (sandbox SDK, assets binding,
or the `proxyToSandbox` helper), recorded in order in the trace.
`waitForReady` records the single `Promise.race([viteReadyPromise, timeout])`
await of the initialization path. -/
inductive SdkCall where
  | proxyToSandbox
  | listProcesses
  | killProcess (pid : String)
  | writeFile (path content : String)
  | exec (cmd : String)
  | startProcess (cmd : String)
  | streamLogs (pid : String)
  | waitForReady
  | assetsFetch
  | containerFetch (sandboxId : String) (port : Nat)
deriving DecidableEq, Repr

/-- Module-level mutable state of the worker instance
(`initialized`, `processLogs`, `viteReadyResolve`), lines 12-15.
`initialized` is the JS `Set<string>` as a duplicate-free list;
`resolverPresent` is whether `viteReadyResolve` is non-null;
`resolvedCount` is a ghost counter of how many times the resolver
function has been invoked (used to state the fires-at-most-once claim). -/
structure WorkerState where
  initialized : List String
  processLogs : List String
  resolverPresent : Bool
  resolvedCount : Nat
deriving DecidableEq, Repr

/-- `initialized.add(id)` on the JS `Set`. -/
def addId (l : List String) (id : String) : List String :=
  if l.contains id then l else l ++ [id]

/- ----------------------------------------------------------------
Route matching (the pathname regexes of lines 49, 283, 289, 330, 387).
---------------------------------------------------------------- -/

/-- Match the anchored regex `^/sandbox/([^/]+)/<suffix>$` against a
pathname: exactly the four segments `"" / "sandbox" / id / suffix` with a
nonempty id. -/
def matchSandboxExact (suffix path : String) : Option String :=
  match splitSlash path.data with
  | [sb0, sb1, id, last] =>
      if sb0 = [] && sb1 = "sandbox".data && id ≠ [] && last = suffix.data then
        some (String.mk id)
      else none
  | _ => none

/-- Match the regex `^/sandbox/([^/]+)/preview(.*)$`: returns the id and
the trailing capture.  The id is the maximal run of non-slash characters
after `/sandbox/`, and the remainder must start with `/preview`. -/
def matchPreview (path : String) : Option (String × String) :=
  if startsWithChars path.data "/sandbox/".data then
    let rest := path.data.drop 9
    let id := rest.takeWhile (fun c => c ≠ '/')
    if id = [] then none
    else
      let after := rest.drop id.length
      if startsWithChars after "/preview".data then
        some (String.mk id, String.mk (after.drop 8))
      else none
  else none

/-- The route the fetch handler dispatches to after `proxyToSandbox`
declines (lines 45-419 of `src/index.ts`). -/
inductive Route where
  | wsUrl (sandboxId : String)
  | root
  | testHmr (sandboxId : String)
  | logsStream (sandboxId : String)
  | preview (sandboxId : String) (subPath : String)
  | notFound
deriving DecidableEq, Repr

/-- The router: the cascade of pathname tests of the fetch handler, in
source order (ws-url, root, POST test-hmr, logs-stream, preview, 404). -/
def matchRoute (method path : String) : Route :=
  match matchSandboxExact "ws-url" path with
  | some id => Route.wsUrl id
  | none =>
    if path = "/" ∨ path = "/index.html" then Route.root
    else
      match (if method = "POST" then matchSandboxExact "test-hmr" path else none) with
      | some id => Route.testHmr id
      | none =>
        match matchSandboxExact "logs-stream" path with
        | some id => Route.logsStream id
        | none =>
          match matchPreview path with
          | some p => Route.preview p.1 p.2
          | none => Route.notFound

/-- One route recognizer, as positioned in the handler's cascade. -/
def routeCheckers : List (String → String → Option Route) :=
  [ fun _ p => (matchSandboxExact "ws-url" p).map Route.wsUrl,
    fun _ p => if p = "/" ∨ p = "/index.html" then some Route.root else none,
    fun m p => if m = "POST" then (matchSandboxExact "test-hmr" p).map Route.testHmr else none,
    fun _ p => (matchSandboxExact "logs-stream" p).map Route.logsStream,
    fun _ p => (matchPreview p).map (fun q => Route.preview q.1 q.2) ]

/-- First-match dispatch over an ordered list of recognizers, defaulting
to the 404 route. -/
def firstMatch : List (String → String → Option Route) → String → String → Route
  | [], _, _ => Route.notFound
  | c :: cs, m, p =>
    match c m p with
    | some r => r
    | none => firstMatch cs m p

/- ----------------------------------------------------------------
The sandbox SDK oracle and the file contents written by the init path.
---------------------------------------------------------------- -/

/-- Fixes the outcome of each sandbox SDK call the handler can issue.
`startProcess` returns the spawned process id on success.  `killProcess`
outcomes are consulted but caught (lines 93-100); `streamProcessLogs`
errors are caught inside the spawned async block (lines 226-232), so no
oracle field is needed for it. -/
structure SdkOracle where
  listProcesses : Except String (List ProcessInfo)
  killProcess : String → Except String Unit
  writeFile : String → String → Except String Unit
  exec : String → Except String Unit
  startProcess : String → Except String String

/-- Outcome of `Promise.race([viteReadyPromise, timeout])` (line 248):
either the ready signal arrived first or the 30-second timer fired.  Both
promises resolve to void, and the race's value is discarded by the code,
so the continuation receives nothing from it. -/
inductive WaitOutcome where
  | ready
  | timedOut
deriving DecidableEq, Repr

/-- The 30-second timeout of line 244, in milliseconds. -/
def initTimeoutMs : Nat := 30000

/-- Content of `/workspace/package.json` (lines 110-122,
`JSON.stringify(..., null, 2)`). -/
def pkgJson : String :=
  String.intercalate "\n" [
    "\x7b",
    "  \"name\": \"vite-ws-test\",",
    "  \"type\": \"module\",",
    "  \"scripts\": \x7b",
    "    \"dev\": \"vite --host 0.0.0.0 --port 3333 --strictPort\"",
    "  \x7d,",
    "  \"dependencies\": \x7b",
    "    \"vite\": \"^5.0.0\"",
    "  \x7d",
    "\x7d" ]

/-- Content of `/workspace/index.html` (lines 125-141). -/
def indexHtml : String :=
  String.intercalate "\n" [
    "<!DOCTYPE html>",
    "<html>",
    "<head>",
    "  <title>Vite in Cloudflare Sandbox</title>",
    "</head>",
    "<body>",
    "  <h1>Hello from Vite in Cloudflare Sandbox!</h1>",
    "  <div id=\"app\">",
    "    <p>This is a minimal Vite server running in a Cloudflare Sandbox.</p>",
    "    <p>HMR via log-based auto-reload is enabled.</p>",
    "  </div>",
    "  <script type=\"module\" src=\"/main.js\"></script>",
    "</body>",
    "</html>" ]

/-- Content of `/workspace/vite.config.js` (lines 144-162); the `base`
option interpolates the sandbox id. -/
def viteConfig (sandboxId : String) : String :=
  String.intercalate "\n" [
    "export default \x7b",
    "  base: \x27/sandbox/" ++ sandboxId ++ "/preview/\x27,",
    "  server: \x7b",
    "    host: \x270.0.0.0\x27,",
    "    port: 3333,",
    "    strictPort: true,",
    "    allowedHosts: [",
    "      \x27localhost\x27,",
    "      \x27.localhost\x27,",
    "      \x27container\x27,      // Allow containerFetch requests",
    "      \x27appmi.store\x27,    // Production domain",
    "      \x27.appmi.store\x27    // Production wildcard subdomains",
    "    ],",
    "    hmr: false  // Disable WebSocket HMR - use log-based auto-reload instead",
    "  \x7d",
    "\x7d" ]

/-- Content of `/workspace/main.js` written during initialization
(lines 165-169). -/
def mainJsInit : String :=
  "console.log(\x27Hello from Vite!\x27);\n" ++
  "document.getElementById(\x27app\x27).innerHTML += \x27<p>JavaScript loaded successfully!</p>\x27;"

/- ----------------------------------------------------------------
The ws-url route handler (lines 49-280).
---------------------------------------------------------------- -/

/-- The predicate of line 64: the process command, when present, contains
`vite` or `bun run dev`. -/
def viteProcPred (p : ProcessInfo) : Bool :=
  match p.command with
  | some c => strIncludes c "vite" || strIncludes c "bun run dev"
  | none => false

/-- The kill loop of lines 86-101: one `killProcess` per listed process,
in list order; a failing call is caught (it only logs a warning) and the
loop continues, so the issued-call trace is the same on either outcome. -/
def runKills (sdk : SdkOracle) : List ProcessInfo → List SdkCall
  | [] => []
  | p :: rest =>
    match sdk.killProcess p.id with
    | Except.ok _ => SdkCall.killProcess p.id :: runKills sdk rest
    | Except.error _ => SdkCall.killProcess p.id :: runKills sdk rest

/-- Sequence one fallible SDK call before a continuation: the call is
recorded in the trace; on error the continuation is not run (the
exception propagates to the route's catch). -/
def seqCall (c : SdkCall) (r : Except String Unit) (rest : List SdkCall × Except String Unit) :
    List SdkCall × Except String Unit :=
  match r with
  | Except.error e => ([c], Except.error e)
  | Except.ok _ => (c :: rest.1, rest.2)

/-- The initialization tail of lines 110-248: write the four files,
install, start the dev server, subscribe to its logs, and await the
ready-or-timeout race.  Any uncaught failure aborts the rest. -/
def initPipeline (sdk : SdkOracle) (sandboxId : String) : List SdkCall × Except String Unit :=
  seqCall (SdkCall.writeFile "/workspace/package.json" pkgJson)
      (sdk.writeFile "/workspace/package.json" pkgJson) <|
  seqCall (SdkCall.writeFile "/workspace/index.html" indexHtml)
      (sdk.writeFile "/workspace/index.html" indexHtml) <|
  seqCall (SdkCall.writeFile "/workspace/vite.config.js" (viteConfig sandboxId))
      (sdk.writeFile "/workspace/vite.config.js" (viteConfig sandboxId)) <|
  seqCall (SdkCall.writeFile "/workspace/main.js" mainJsInit)
      (sdk.writeFile "/workspace/main.js" mainJsInit) <|
  seqCall (SdkCall.exec "bun install") (sdk.exec "bun install") <|
  (match sdk.startProcess "bun run dev" with
   | Except.error e => ([SdkCall.startProcess "bun run dev"], Except.error e)
   | Except.ok pid =>
       ([SdkCall.startProcess "bun run dev", SdkCall.streamLogs pid, SdkCall.waitForReady],
        Except.ok ()))

/-- `new URL(path, url.origin).toString()` for the absolute path
`/sandbox/<id>/preview/` (line 256): the origin followed by the path. -/
def previewUrlFor (origin sandboxId : String) : String :=
  origin ++ "/sandbox/" ++ sandboxId ++ "/preview/"

/-- The status-200 JSON response of lines 265-268. -/
def wsUrlSuccess (origin sandboxId : String) : Resp :=
  { status := 200,
    body := RespBody.json
      [("previewUrl", JVal.s (previewUrlFor origin sandboxId)),
       ("sandboxId", JVal.s sandboxId)] }

/-- The status-500 JSON error response of lines 276-278 (and 414). -/
def errorResp (e : String) : Resp :=
  { status := 500, body := RespBody.json [("error", JVal.s e)] }

/-- The ws-url route handler, lines 59-279.  Returns the new worker
state, the ordered trace of issued SDK calls, and the response.  The
race outcome `wo` is not consumed: the code discards the race's value
and runs the same continuation either way (lines 248-268). -/
def wsUrlHandler (st : WorkerState) (origin sandboxId : String) (sdk : SdkOracle)
    (_wo : WaitOutcome) : WorkerState × List SdkCall × Resp :=
  match sdk.listProcesses with
  | Except.error e => (st, [SdkCall.listProcesses], errorResp e)
  | Except.ok processes =>
    match processes.find? viteProcPred with
    | some _ =>
      ({ st with initialized := addId st.initialized sandboxId },
       [SdkCall.listProcesses], wsUrlSuccess origin sandboxId)
    | none =>
      let kills := runKills sdk processes
      let st1 := { st with resolverPresent := true }
      let pipe := initPipeline sdk sandboxId
      match pipe.2 with
      | Except.error e =>
        (st1, SdkCall.listProcesses :: (kills ++ pipe.1), errorResp e)
      | Except.ok _ =>
        ({ st1 with initialized := addId st1.initialized sandboxId },
         SdkCall.listProcesses :: (kills ++ pipe.1), wsUrlSuccess origin sandboxId)

/- ----------------------------------------------------------------
The test-hmr route handler (lines 288-327).
---------------------------------------------------------------- -/

/-- The parsed JSON request body of the test-hmr route; `count` is `none`
when the field is missing, `undefined` or `null`. -/
structure HmrBody where
  count : Option Int
deriving DecidableEq, Repr

/-- JS `body.count || 0`: the count when truthy, `0` otherwise
(a missing, null or zero count is falsy). -/
def jsOrZero : Option Int → Int
  | none => 0
  | some v => if v = 0 then 0 else v

/-- Pieces of the `newMainJs` template literal of lines 301-305; the
count is interpolated twice. -/
def mainJsPart1 : String := "console.log(\x27Hello from Vite! Count: "

/-- Middle piece of the `newMainJs` template literal. -/
def mainJsPart2 : String :=
  "\x27);\nconst app = document.getElementById(\x27app\x27);\nif (app) \x7b\n" ++
  "  app.innerHTML += \x27<p>JavaScript loaded successfully! Click count: <strong>"

/-- Final piece of the `newMainJs` template literal. -/
def mainJsPart3 : String := "</strong></p>\x27;\n\x7d"

/-- The `newMainJs` content written by the test-hmr route. -/
def newMainJs (count : Int) : String :=
  mainJsPart1 ++ toString count ++ mainJsPart2 ++ toString count ++ mainJsPart3

/-- The test-hmr route handler, lines 294-326: parse the body, take
`body.count || 0`, write `/workspace/main.js`, and answer 200 on success
or 500 with the stringified error when parsing or writing throws. -/
def testHmrHandler (sdk : SdkOracle) (body : Except String HmrBody) :
    List SdkCall × Resp :=
  match body with
  | Except.error e =>
    ([], { status := 500,
           body := RespBody.json [("success", JVal.b false), ("error", JVal.s e)] })
  | Except.ok b =>
    let count := jsOrZero b.count
    let content := newMainJs count
    match sdk.writeFile "/workspace/main.js" content with
    | Except.error e =>
      ([SdkCall.writeFile "/workspace/main.js" content],
       { status := 500,
         body := RespBody.json [("success", JVal.b false), ("error", JVal.s e)] })
    | Except.ok _ =>
      ([SdkCall.writeFile "/workspace/main.js" content],
       { status := 200,
         body := RespBody.json
           [("success", JVal.b true), ("count", JVal.i count),
            ("message", JVal.s "main.js updated, HMR should trigger")] })

/- ----------------------------------------------------------------
The fetch handler (lines 18-420).
---------------------------------------------------------------- -/

/-- The parts of the incoming request the handler inspects. -/
structure Request where
  method : String
  path : String
  origin : String
deriving DecidableEq, Repr

/-- Per-request environment: the `proxyToSandbox` outcome, the SDK
oracle, the assets-binding response, the parsed test-hmr body, the
`containerFetch` outcome of the preview route, and the ready-race
outcome of the initialization path. -/
structure FetchEnv where
  proxy : Option Resp
  sdk : SdkOracle
  assets : Resp
  hmrBody : Except String HmrBody
  containerFetch : Except String Resp
  waitOutcome : WaitOutcome

/-- The 404 fallthrough response of line 419. -/
def notFoundResp : Resp := { status := 404, body := RespBody.text "Not found" }

/-- The whole fetch handler: `proxyToSandbox` first (lines 28-43), then
the route cascade, then the 404 fallthrough. -/
def fetchHandler (st : WorkerState) (req : Request) (fenv : FetchEnv) :
    WorkerState × List SdkCall × Resp :=
  match fenv.proxy with
  | some r => (st, [SdkCall.proxyToSandbox], r)
  | none =>
    match matchRoute req.method req.path with
    | Route.wsUrl id =>
      let r := wsUrlHandler st req.origin id fenv.sdk fenv.waitOutcome
      (r.1, SdkCall.proxyToSandbox :: r.2.1, r.2.2)
    | Route.root =>
      (st, [SdkCall.proxyToSandbox, SdkCall.assetsFetch], fenv.assets)
    | Route.testHmr _ =>
      let r := testHmrHandler fenv.sdk fenv.hmrBody
      (st, SdkCall.proxyToSandbox :: r.1, r.2)
    | Route.logsStream _ =>
      (st, [SdkCall.proxyToSandbox], { status := 200, body := RespBody.sse })
    | Route.preview id _ =>
      match fenv.containerFetch with
      | Except.ok r =>
        (st, [SdkCall.proxyToSandbox, SdkCall.containerFetch id 3333], r)
      | Except.error e =>
        (st, [SdkCall.proxyToSandbox, SdkCall.containerFetch id 3333], errorResp e)
    | Route.notFound => (st, [SdkCall.proxyToSandbox], notFoundResp)

/- ----------------------------------------------------------------
The log-stream loop and the readiness state machine (lines 193-233).
---------------------------------------------------------------- -/

/-- ASCII whitespace stripped by `trim`. -/
def isWsChar (c : Char) : Bool :=
  c == ' ' || c == '\t' || c == '\n' || c == '\r'

/-- JS `String.prototype.trim` (model covers ASCII whitespace). -/
def jsTrim (s : String) : String :=
  String.mk (((s.data.dropWhile isWsChar).reverse.dropWhile isWsChar).reverse)

/-- The ready patterns of line 214: the line contains `Local:`,
`ready in` or `localhost:3333`. -/
def isReadyLine (l : String) : Bool :=
  strIncludes l "Local:" || strIncludes l "ready in" || strIncludes l "localhost:3333"

/-- One iteration of the `for await` log loop, lines 198-224: trim the
event data; skip falsy lines; push the line onto `processLogs`; when the
resolver is still present and the sandbox id is not initialized, a line
matching a ready pattern invokes and clears the resolver. -/
def logStep (sandboxId : String) (st : WorkerState) (evData : Option String) : WorkerState :=
  match evData with
  | none => st
  | some d =>
    let logLine := jsTrim d
    if logLine = "" then st
    else
      let st1 := { st with processLogs := st.processLogs ++ [logLine] }
      if st1.resolverPresent && !(st1.initialized.contains sandboxId) then
        if isReadyLine logLine then
          { st1 with resolverPresent := false, resolvedCount := st1.resolvedCount + 1 }
        else st1
      else st1

/-- The log loop over a whole stream of SSE event payloads. -/
def runLog (sandboxId : String) (st : WorkerState) (evs : List (Option String)) : WorkerState :=
  evs.foldl (logStep sandboxId) st

/-- The trimmed payload of one event when the loop does not skip it. -/
def signalOf (evData : Option String) : Option String :=
  match evData with
  | none => none
  | some d => if jsTrim d = "" then none else some (jsTrim d)

/-- Whether one loop iteration invokes the resolver. -/
def firesB (sandboxId : String) (st : WorkerState) (evData : Option String) : Bool :=
  st.resolverPresent && !(st.initialized.contains sandboxId) &&
    (match signalOf evData with
     | some l => isReadyLine l
     | none => false)

/-- One matching SSE event payload. -/
def matchEv (evData : Option String) : Prop :=
  ∃ l, signalOf evData = some l ∧ isReadyLine l = true

/- ----------------------------------------------------------------
The logs-stream SSE machine (lines 335-374).
---------------------------------------------------------------- -/

/-- `JSON.stringify` escaping of one character (model covers the quote,
the backslash and the common control characters). -/
def jsonEscapeChar (c : Char) : String :=
  if c == '"' then "\\\""
  else if c == '\\' then "\\\\"
  else if c == '\n' then "\\n"
  else if c == '\r' then "\\r"
  else if c == '\t' then "\\t"
  else String.singleton c

/-- `JSON.stringify` of a string. -/
def jsonEscape (s : String) : String :=
  "\"" ++ String.join (s.data.map jsonEscapeChar) ++ "\""

/-- `JSON.stringify(\x7b event: 'vite:log', log, index \x7d)` of
lines 343-347. -/
def logFrameJson (log : String) (i : Nat) : String :=
  "\x7b\"event\":\"vite:log\",\"log\":" ++ jsonEscape log ++
    ",\"index\":" ++ toString i ++ "\x7d"

/-- One SSE frame, `data: <json>\n\n` (line 348). -/
def sseFrame (log : String) (i : Nat) : String :=
  "data: " ++ logFrameJson log i ++ "\n\n"

/-- Per-connection stream state: the poll cursor `lastLogIndex` and the
frames enqueued so far. -/
structure SseState where
  lastLogIndex : Nat
  emitted : List String
deriving DecidableEq, Repr

/-- The frame for buffer position `i` (the loops read `processLogs[i]`). -/
def frameAt (logs : List String) (i : Nat) : String :=
  sseFrame (logs.getD i "") i

/-- The frames for buffer positions `start, start+1, ...` (`count` of
them), in order. -/
def framesRange (logs : List String) (start count : Nat) : List String :=
  (List.range count).map (fun k => frameAt logs (start + k))

/-- The `start` callback of lines 340-350: emit every buffered line and
set the cursor to the buffer length. -/
def sseStart (logs : List String) : SseState :=
  { lastLogIndex := logs.length, emitted := framesRange logs 0 logs.length }

/-- One `setInterval` tick of lines 353-365 against the current buffer
snapshot: emit the lines the cursor has not covered and advance it. -/
def ssePoll (st : SseState) (logs : List String) : SseState :=
  if st.lastLogIndex < logs.length then
    { lastLogIndex := logs.length,
      emitted := st.emitted ++ framesRange logs st.lastLogIndex (logs.length - st.lastLogIndex) }
  else st

/-- A whole connection: the start callback on the buffer at subscription
time, then one poll per later snapshot. -/
def sseRun (logs0 : List String) (snaps : List (List String)) : SseState :=
  snaps.foldl ssePoll (sseStart logs0)

/-- The poll period of line 365, in milliseconds. -/
def pollIntervalMs : Nat := 500

/- ----------------------------------------------------------------
Interleavings of the worker's state-mutating activities.
---------------------------------------------------------------- -/

/-- One state-mutating activity of the worker instance: a handled
request, or one log-loop iteration of a streaming process. -/
inductive WorkerEvent where
  | request (req : Request) (fenv : FetchEnv)
  | log (sandboxId : String) (evData : Option String)

/-- Apply one activity to the module-level state. -/
def applyEvent (st : WorkerState) : WorkerEvent → WorkerState
  | WorkerEvent.request req fenv => (fetchHandler st req fenv).1
  | WorkerEvent.log sandboxId evData => logStep sandboxId st evData

/- ----------------------------------------------------------------
Concrete instances used to exercise the model.
---------------------------------------------------------------- -/

/-- A fresh worker state (module load, lines 12-15). -/
def demoSt : WorkerState :=
  { initialized := [], processLogs := [], resolverPresent := false, resolvedCount := 0 }

/-- A worker state with a pending ready resolver, as set by line 104. -/
def demoReadySt : WorkerState :=
  { initialized := [], processLogs := [], resolverPresent := true, resolvedCount := 0 }

/-- An oracle where every call succeeds and the listed process is not a
dev-server process. -/
def okSdk : SdkOracle :=
  { listProcesses := Except.ok [{ id := "p1", command := some "node server.js" }],
    killProcess := fun _ => Except.ok (),
    writeFile := fun _ _ => Except.ok (),
    exec := fun _ => Except.ok (),
    startProcess := fun _ => Except.ok "proc-9" }

/-- An oracle whose process list already holds a running dev server. -/
def viteSdk : SdkOracle :=
  { okSdk with listProcesses := Except.ok [{ id := "p7", command := some "bun run dev" }] }

/-- A response `proxyToSandbox` could yield. -/
def demoResp : Resp := { status := 201, body := RespBody.text "proxied" }

/-- A per-request environment over `okSdk` with a chosen proxy outcome. -/
def demoFenv (proxy : Option Resp) : FetchEnv :=
  { proxy := proxy,
    sdk := okSdk,
    assets := { status := 200, body := RespBody.text "index" },
    hmrBody := Except.ok { count := some 5 },
    containerFetch := Except.ok { status := 200, body := RespBody.text "page" },
    waitOutcome := WaitOutcome.ready }

/-- A concrete ws-url request. -/
def demoReqWs : Request :=
  { method := "GET", path := "/sandbox/a/ws-url", origin := "http://localhost:5151" }

/-- A concrete request no route recognizes. -/
def demoReqNone : Request :=
  { method := "GET", path := "/definitely/not/a/route", origin := "http://localhost:5151" }

/-- A concrete SSE event stream from a starting dev server: shell noise,
an empty keepalive, a `ready in` banner and the `Local:` line. -/
def demoEvs : List (Option String) :=
  [some "$ bun run dev", none, some "  VITE v5.0.0  ready in 320 ms  ",
   some "  Local: http://localhost:3333/"]

example : matchSandboxExact "ws-url" "/sandbox/abc/ws-url" = some "abc" := by decide
example : matchSandboxExact "ws-url" "/sandbox/abc/preview/ws-url" = none := by decide
example : matchPreview "/sandbox/abc/preview/assets/x.js" = some ("abc", "/assets/x.js") := by decide
example : matchPreview "/sandbox/abc/preview" = some ("abc", "") := by decide
example : matchPreview "/sandbox/xpreview" = none := by decide
example : matchRoute "GET" "/sandbox/a/test-hmr" = Route.notFound := by decide
example : matchRoute "POST" "/sandbox/a/test-hmr" = Route.testHmr "a" := by decide
example : matchRoute "GET" "/nope" = Route.notFound := by decide
example : strIncludes "bun run dev --port" "bun run dev" = true := by decide
example : strIncludes "node x" "vite" = false := by decide

/- ----------------------------------------------------------------
Helper lemmas.
---------------------------------------------------------------- -/

/-- The kill loop issues exactly one kill per listed process, in order,
whatever the individual outcomes. -/
theorem runKills_eq_map (sdk : SdkOracle) (ps : List ProcessInfo) :
    runKills sdk ps = ps.map (fun p => SdkCall.killProcess p.id) := by
  induction ps with
  | nil => rfl
  | cons p rest ih =>
    cases h : sdk.killProcess p.id <;> simp [runKills, h, ih]

/-- The initialization pipeline always records the first file write. -/
theorem initPipeline_has_write (sdk : SdkOracle) (sandboxId : String) :
    SdkCall.writeFile "/workspace/package.json" pkgJson ∈ (initPipeline sdk sandboxId).1 := by
  unfold initPipeline seqCall
  cases h : sdk.writeFile "/workspace/package.json" pkgJson <;> simp [h]

/-- The initialization pipeline never kills a process. -/
theorem initPipeline_no_kill (sdk : SdkOracle) (sandboxId pid : String) :
    SdkCall.killProcess pid ∉ (initPipeline sdk sandboxId).1 := by
  unfold initPipeline seqCall
  cases h1 : sdk.writeFile "/workspace/package.json" pkgJson <;> simp [h1]
  cases h2 : sdk.writeFile "/workspace/index.html" indexHtml <;> simp [h2]
  cases h3 : sdk.writeFile "/workspace/vite.config.js" (viteConfig sandboxId) <;> simp [h3]
  cases h4 : sdk.writeFile "/workspace/main.js" mainJsInit <;> simp [h4]
  cases h5 : sdk.exec "bun install" <;> simp [h5]
  cases h6 : sdk.startProcess "bun run dev" <;> simp [h6]

/-- The initialization pipeline's kill oracle is never consulted. -/
theorem initPipeline_kill_irrel (sdk : SdkOracle) (kf : String → Except String Unit)
    (sandboxId : String) :
    initPipeline { sdk with killProcess := kf } sandboxId = initPipeline sdk sandboxId := rfl

/-- The kill loop's issued calls do not depend on the kill outcomes. -/
theorem runKills_kill_any (sdk : SdkOracle) (kf : String → Except String Unit)
    (ps : List ProcessInfo) :
    runKills { sdk with killProcess := kf } ps = runKills sdk ps := by
  rw [runKills_eq_map, runKills_eq_map]

/-- The whole ws-url handler is unaffected by the kill outcomes: each
kill failure is caught and only logged. -/
theorem wsUrlHandler_kill_irrel (st : WorkerState) (origin sandboxId : String)
    (sdk : SdkOracle) (wo : WaitOutcome) (kf : String → Except String Unit) :
    wsUrlHandler st origin sandboxId { sdk with killProcess := kf } wo =
      wsUrlHandler st origin sandboxId sdk wo := by
  unfold wsUrlHandler
  simp only [initPipeline_kill_irrel, runKills_kill_any]

/-- On success the pipeline awaits the ready race exactly once. -/
theorem initPipeline_wait_once (sdk : SdkOracle) (sandboxId : String)
    (h : (initPipeline sdk sandboxId).2 = Except.ok ()) :
    (initPipeline sdk sandboxId).1.count SdkCall.waitForReady = 1 := by
  unfold initPipeline seqCall at h ⊢
  cases h1 : sdk.writeFile "/workspace/package.json" pkgJson <;> simp [h1] at h ⊢
  cases h2 : sdk.writeFile "/workspace/index.html" indexHtml <;> simp [h2] at h ⊢
  cases h3 : sdk.writeFile "/workspace/vite.config.js" (viteConfig sandboxId) <;> simp [h3] at h ⊢
  cases h4 : sdk.writeFile "/workspace/main.js" mainJsInit <;> simp [h4] at h ⊢
  cases h5 : sdk.exec "bun install" <;> simp [h5] at h ⊢
  cases h6 : sdk.startProcess "bun run dev" <;> simp [h6] at h ⊢

/-- The router agrees with first-match dispatch over the ordered
recognizer list. -/
theorem matchRoute_eq_firstMatch (m p : String) :
    matchRoute m p = firstMatch routeCheckers m p := by
  unfold matchRoute routeCheckers
  cases h1 : matchSandboxExact "ws-url" p <;>
    by_cases h2 : p = "/" ∨ p = "/index.html" <;>
    by_cases hm : m = "POST" <;>
    cases h3 : matchSandboxExact "test-hmr" p <;>
    cases h4 : matchSandboxExact "logs-stream" p <;>
    cases h5 : matchPreview p <;>
    simp_all [firstMatch]

/-- The router answers the 404 route exactly when every recognizer
declines. -/
theorem matchRoute_notFound_iff (m p : String) :
    matchRoute m p = Route.notFound ↔
      (matchSandboxExact "ws-url" p = none ∧ ¬(p = "/" ∨ p = "/index.html") ∧
       (m = "POST" → matchSandboxExact "test-hmr" p = none) ∧
       matchSandboxExact "logs-stream" p = none ∧ matchPreview p = none) := by
  unfold matchRoute
  cases h1 : matchSandboxExact "ws-url" p <;>
    by_cases h2 : p = "/" ∨ p = "/index.html" <;>
    by_cases hm : m = "POST" <;>
    cases h3 : matchSandboxExact "test-hmr" p <;>
    cases h4 : matchSandboxExact "logs-stream" p <;>
    cases h5 : matchPreview p <;>
    simp_all

/- ----------------------------------------------------------------
Claim theorems.
---------------------------------------------------------------- -/

/-- C1: for every incoming request the fetch handler consults
`proxyToSandbox` first; whenever it yields a response, that response is
returned unchanged, no other route handler runs (the call trace is just
the proxy call), and the worker state is untouched. -/
theorem c1_proxy_short_circuit (st : WorkerState) (req : Request) (fenv : FetchEnv)
    (r : Resp) (h : fenv.proxy = some r) :
    fetchHandler st req fenv = (st, [SdkCall.proxyToSandbox], r) := by
  simp [fetchHandler, h]

/-- Witness for C1 at a concrete proxied request. -/
theorem c1_witness :
    fetchHandler demoSt demoReqWs (demoFenv (some demoResp)) =
      (demoSt, [SdkCall.proxyToSandbox], demoResp) :=
  c1_proxy_short_circuit demoSt demoReqWs (demoFenv (some demoResp)) demoResp rfl

/-- C6: when `proxyToSandbox` declines and the pathname matches none of
the recognized shapes (ws-url, root, POST test-hmr, logs-stream,
preview), the handler returns status 404 with body `Not found` and
leaves the state untouched; moreover the router is first-match dispatch
over exactly that recognizer order, and it falls through precisely when
every recognizer declines. -/
theorem c6_fallthrough_404 (st : WorkerState) (req : Request) (fenv : FetchEnv)
    (hp : fenv.proxy = none)
    (hnone : matchRoute req.method req.path = Route.notFound) :
    fetchHandler st req fenv = (st, [SdkCall.proxyToSandbox], notFoundResp) ∧
    notFoundResp = { status := 404, body := RespBody.text "Not found" } ∧
    (∀ m p, matchRoute m p = firstMatch routeCheckers m p) ∧
    (∀ m p, matchRoute m p = Route.notFound ↔
      (matchSandboxExact "ws-url" p = none ∧ ¬(p = "/" ∨ p = "/index.html") ∧
       (m = "POST" → matchSandboxExact "test-hmr" p = none) ∧
       matchSandboxExact "logs-stream" p = none ∧ matchPreview p = none)) := by
  refine ⟨?_, rfl, matchRoute_eq_firstMatch, matchRoute_notFound_iff⟩
  simp [fetchHandler, hp, hnone]

/-- Witness for C6 at a concrete unrecognized request. -/
theorem c6_witness :
    fetchHandler demoSt demoReqNone (demoFenv none) =
      (demoSt, [SdkCall.proxyToSandbox], notFoundResp) :=
  (c6_fallthrough_404 demoSt demoReqNone (demoFenv none) rfl (by decide)).1

/-- C2: the ws-url handler always issues `listProcesses`; it performs
initialization (witnessed by a file write in the trace) exactly when no
listed process has a command containing `vite` or `bun run dev`; and
when such a process exists it only marks the id initialized and answers,
killing nothing and writing nothing. -/
theorem c2_ws_url_init_iff (st : WorkerState) (origin sandboxId : String)
    (sdk : SdkOracle) (wo : WaitOutcome) (ps : List ProcessInfo)
    (h : sdk.listProcesses = Except.ok ps) :
    SdkCall.listProcesses ∈ (wsUrlHandler st origin sandboxId sdk wo).2.1 ∧
    ((∃ p ∈ ps, viteProcPred p = true) ↔
      ¬ ∃ pa c, SdkCall.writeFile pa c ∈ (wsUrlHandler st origin sandboxId sdk wo).2.1) ∧
    ((∃ p ∈ ps, viteProcPred p = true) →
      wsUrlHandler st origin sandboxId sdk wo =
        ({ st with initialized := addId st.initialized sandboxId },
         [SdkCall.listProcesses], wsUrlSuccess origin sandboxId)) := by
  cases hf : ps.find? viteProcPred with
  | some q =>
    have hex : ∃ p ∈ ps, viteProcPred p = true :=
      ⟨q, List.mem_of_find?_eq_some hf, List.find?_some hf⟩
    refine ⟨?_, ?_, ?_⟩
    · simp [wsUrlHandler, h, hf]
    · simp [wsUrlHandler, h, hf, hex]
    · intro _
      simp [wsUrlHandler, h, hf]
  | none =>
    have hno : ¬ ∃ p ∈ ps, viteProcPred p = true := by
      have := List.find?_eq_none.mp hf
      simpa using this
    refine ⟨?_, ?_, fun hex => absurd hex hno⟩
    · cases hp : (initPipeline sdk sandboxId).2 <;>
        simp [wsUrlHandler, h, hf, hp]
    · constructor
      · intro hex; exact absurd hex hno
      · intro hnw
        exfalso
        refine hnw ⟨"/workspace/package.json", pkgJson, ?_⟩
        cases hp : (initPipeline sdk sandboxId).2 <;>
          simp [wsUrlHandler, h, hf, hp, initPipeline_has_write sdk sandboxId]

/-- Witness for C2: a running dev-server process short-circuits
initialization. -/
theorem c2_witness :
    SdkCall.listProcesses ∈ (wsUrlHandler demoSt "http://localhost:5151" "a" viteSdk WaitOutcome.ready).2.1 ∧
    ((∃ p ∈ [ProcessInfo.mk "p7" (some "bun run dev")], viteProcPred p = true) ↔
      ¬ ∃ pa c, SdkCall.writeFile pa c ∈ (wsUrlHandler demoSt "http://localhost:5151" "a" viteSdk WaitOutcome.ready).2.1) ∧
    ((∃ p ∈ [ProcessInfo.mk "p7" (some "bun run dev")], viteProcPred p = true) →
      wsUrlHandler demoSt "http://localhost:5151" "a" viteSdk WaitOutcome.ready =
        ({ demoSt with initialized := addId demoSt.initialized "a" },
         [SdkCall.listProcesses], wsUrlSuccess "http://localhost:5151" "a")) :=
  c2_ws_url_init_iff demoSt "http://localhost:5151" "a" viteSdk WaitOutcome.ready
    [ProcessInfo.mk "p7" (some "bun run dev")] rfl

/-- C3: the initialization path awaits the ready-or-timeout race exactly
once; when the 30-second timer fires the handler's result is the same as
in the ready case, in particular it retries nothing, raises no error,
marks the sandbox id initialized, and answers with the preview-URL
response. -/
theorem c3_timeout_same_as_ready (st : WorkerState) (origin sandboxId : String)
    (sdk : SdkOracle) (ps : List ProcessInfo)
    (h : sdk.listProcesses = Except.ok ps)
    (hno : ps.find? viteProcPred = none)
    (hok : (initPipeline sdk sandboxId).2 = Except.ok ()) :
    wsUrlHandler st origin sandboxId sdk WaitOutcome.timedOut =
      wsUrlHandler st origin sandboxId sdk WaitOutcome.ready ∧
    (wsUrlHandler st origin sandboxId sdk WaitOutcome.timedOut).2.1.count SdkCall.waitForReady = 1 ∧
    (wsUrlHandler st origin sandboxId sdk WaitOutcome.timedOut).2.2 = wsUrlSuccess origin sandboxId ∧
    sandboxId ∈ (wsUrlHandler st origin sandboxId sdk WaitOutcome.timedOut).1.initialized ∧
    initTimeoutMs = 30000 := by
  refine ⟨rfl, ?_, ?_, ?_, rfl⟩
  · simp only [wsUrlHandler, h, hno, hok]
    rw [List.count_cons]
    simp only [List.count_append, runKills_eq_map]
    have hkills : (ps.map (fun p => SdkCall.killProcess p.id)).count SdkCall.waitForReady = 0 := by
      rw [List.count_eq_zero]
      simp
    rw [hkills, initPipeline_wait_once sdk sandboxId hok]
    rfl
  · simp [wsUrlHandler, h, hno, hok]
  · have hinit : (wsUrlHandler st origin sandboxId sdk WaitOutcome.timedOut).1.initialized
        = addId st.initialized sandboxId := by
      simp [wsUrlHandler, h, hno, hok]
    rw [hinit]
    unfold addId
    split
    · rename_i hc
      exact List.elem_iff.mp hc
    · simp

/-- Witness for C3 on a concrete all-success oracle. -/
theorem c3_witness :
    wsUrlHandler demoSt "http://localhost:5151" "a" okSdk WaitOutcome.timedOut =
      wsUrlHandler demoSt "http://localhost:5151" "a" okSdk WaitOutcome.ready ∧
    (wsUrlHandler demoSt "http://localhost:5151" "a" okSdk WaitOutcome.timedOut).2.1.count SdkCall.waitForReady = 1 ∧
    (wsUrlHandler demoSt "http://localhost:5151" "a" okSdk WaitOutcome.timedOut).2.2 = wsUrlSuccess "http://localhost:5151" "a" ∧
    "a" ∈ (wsUrlHandler demoSt "http://localhost:5151" "a" okSdk WaitOutcome.timedOut).1.initialized ∧
    initTimeoutMs = 30000 :=
  c3_timeout_same_as_ready demoSt "http://localhost:5151" "a" okSdk
    [ProcessInfo.mk "p1" (some "node server.js")] rfl (by decide) rfl

/-- C7: when initialization runs, the trace is the `listProcesses` call,
then one `killProcess` per listed process in order, then the pipeline,
which contains no kill (so every kill precedes every write and the
process start); and swapping the kill oracle (any pattern of per-kill
failures) changes nothing, since each failure is caught. -/
theorem c7_kills_first_and_caught (st : WorkerState) (origin sandboxId : String)
    (sdk : SdkOracle) (wo : WaitOutcome) (ps : List ProcessInfo)
    (h : sdk.listProcesses = Except.ok ps)
    (hno : ps.find? viteProcPred = none) :
    (wsUrlHandler st origin sandboxId sdk wo).2.1 =
      SdkCall.listProcesses ::
        (ps.map (fun p => SdkCall.killProcess p.id) ++ (initPipeline sdk sandboxId).1) ∧
    (∀ pid, SdkCall.killProcess pid ∉ (initPipeline sdk sandboxId).1) ∧
    (∀ kf : String → Except String Unit,
      wsUrlHandler st origin sandboxId { sdk with killProcess := kf } wo =
        wsUrlHandler st origin sandboxId sdk wo) := by
  refine ⟨?_, fun pid => initPipeline_no_kill sdk sandboxId pid,
    fun kf => wsUrlHandler_kill_irrel st origin sandboxId sdk wo kf⟩
  cases hp : (initPipeline sdk sandboxId).2 <;>
    simp [wsUrlHandler, h, hno, hp, runKills_eq_map]

/-- Witness for C7 on a concrete oracle with one stale process. -/
theorem c7_witness :
    (wsUrlHandler demoSt "http://localhost:5151" "a" okSdk WaitOutcome.ready).2.1 =
      SdkCall.listProcesses ::
        ([ProcessInfo.mk "p1" (some "node server.js")].map (fun p => SdkCall.killProcess p.id)
          ++ (initPipeline okSdk "a").1) ∧
    (∀ pid, SdkCall.killProcess pid ∉ (initPipeline okSdk "a").1) ∧
    (∀ kf : String → Except String Unit,
      wsUrlHandler demoSt "http://localhost:5151" "a" { okSdk with killProcess := kf } WaitOutcome.ready =
        wsUrlHandler demoSt "http://localhost:5151" "a" okSdk WaitOutcome.ready) :=
  c7_kills_first_and_caught demoSt "http://localhost:5151" "a" okSdk WaitOutcome.ready
    [ProcessInfo.mk "p1" (some "node server.js")] rfl (by decide)

/-- C9: the ws-url route yields exactly two outcomes: the status-200 JSON
response whose `previewUrl` is `/sandbox/<id>/preview/` resolved against
the request origin alongside the sandbox id, or, when an SDK call throws,
a status-500 JSON response carrying the stringified error. -/
theorem c9_ws_url_outcomes (st : WorkerState) (origin sandboxId : String)
    (sdk : SdkOracle) (wo : WaitOutcome) :
    (((wsUrlHandler st origin sandboxId sdk wo).2.2 = wsUrlSuccess origin sandboxId ∧
        (wsUrlHandler st origin sandboxId sdk wo).2.2.status = 200) ∨
      (∃ e, (wsUrlHandler st origin sandboxId sdk wo).2.2 = errorResp e ∧
        (wsUrlHandler st origin sandboxId sdk wo).2.2.status = 500)) ∧
    wsUrlSuccess origin sandboxId =
      { status := 200,
        body := RespBody.json
          [("previewUrl", JVal.s (origin ++ "/sandbox/" ++ sandboxId ++ "/preview/")),
           ("sandboxId", JVal.s sandboxId)] } := by
  refine ⟨?_, rfl⟩
  cases hl : sdk.listProcesses with
  | error e => exact Or.inr ⟨e, by simp [wsUrlHandler, hl, errorResp], by simp [wsUrlHandler, hl, errorResp]⟩
  | ok ps =>
    cases hf : ps.find? viteProcPred with
    | some q => exact Or.inl ⟨by simp [wsUrlHandler, hl, hf], by simp [wsUrlHandler, hl, hf, wsUrlSuccess]⟩
    | none =>
      cases hp : (initPipeline sdk sandboxId).2 with
      | error e =>
        exact Or.inr ⟨e, by simp [wsUrlHandler, hl, hf, hp], by simp [wsUrlHandler, hl, hf, hp, errorResp]⟩
      | ok u =>
        exact Or.inl ⟨by simp [wsUrlHandler, hl, hf, hp], by simp [wsUrlHandler, hl, hf, hp, wsUrlSuccess]⟩

/- Readiness machine lemmas. -/

/-- Unfolding of the loop on a cons cell. -/
theorem runLog_cons (sandboxId : String) (st : WorkerState) (ev : Option String)
    (evs : List (Option String)) :
    runLog sandboxId st (ev :: evs) = runLog sandboxId (logStep sandboxId st ev) evs := rfl

/-- The resolver-invocation count increments exactly on a firing step. -/
theorem logStep_resolvedCount (sandboxId : String) (st : WorkerState) (evData : Option String) :
    (logStep sandboxId st evData).resolvedCount =
      st.resolvedCount + (if firesB sandboxId st evData then 1 else 0) := by
  cases evData with
  | none => simp [logStep, firesB, signalOf]
  | some d =>
    by_cases he : jsTrim d = ""
    · simp [logStep, firesB, signalOf, he]
    · by_cases hp : st.resolverPresent = true
      · by_cases hm : sandboxId ∈ st.initialized
        · simp [logStep, firesB, signalOf, he, hp, hm]
        · by_cases hl : isReadyLine (jsTrim d) = true
          · simp [logStep, firesB, signalOf, he, hp, hm, hl]
          · simp [logStep, firesB, signalOf, he, hp, hm, hl]
      · simp only [Bool.not_eq_true] at hp
        simp [logStep, firesB, signalOf, he, hp]

/-- A firing step clears the resolver; any other step leaves it as is. -/
theorem logStep_resolverPresent (sandboxId : String) (st : WorkerState) (evData : Option String) :
    (logStep sandboxId st evData).resolverPresent =
      (st.resolverPresent && !(firesB sandboxId st evData)) := by
  cases evData with
  | none => simp [logStep, firesB, signalOf]
  | some d =>
    by_cases he : jsTrim d = ""
    · simp [logStep, firesB, signalOf, he]
    · by_cases hp : st.resolverPresent = true
      · by_cases hm : sandboxId ∈ st.initialized
        · simp [logStep, firesB, signalOf, he, hp, hm]
        · by_cases hl : isReadyLine (jsTrim d) = true
          · simp [logStep, firesB, signalOf, he, hp, hm, hl]
          · simp [logStep, firesB, signalOf, he, hp, hm, hl]
      · simp only [Bool.not_eq_true] at hp
        simp [logStep, firesB, signalOf, he, hp]

/-- The loop never touches the initialized set. -/
theorem logStep_initialized (sandboxId : String) (st : WorkerState) (evData : Option String) :
    (logStep sandboxId st evData).initialized = st.initialized := by
  cases evData with
  | none => rfl
  | some d =>
    simp only [logStep]
    split_ifs <;> rfl

/-- The firing condition, spelled out. -/
theorem firesB_true_iff (sandboxId : String) (st : WorkerState) (evData : Option String) :
    firesB sandboxId st evData = true ↔
      (st.resolverPresent = true ∧ st.initialized.contains sandboxId = false ∧
       ∃ l, signalOf evData = some l ∧ isReadyLine l = true) := by
  unfold firesB
  cases hs : signalOf evData <;> simp [hs, and_assoc]

/-- Once the resolver is gone the loop can never invoke it again. -/
theorem runLog_frozen (sandboxId : String) (evs : List (Option String)) (st : WorkerState)
    (h : st.resolverPresent = false) :
    (runLog sandboxId st evs).resolverPresent = false ∧
    (runLog sandboxId st evs).resolvedCount = st.resolvedCount := by
  induction evs generalizing st with
  | nil => exact ⟨h, rfl⟩
  | cons ev rest ih =>
    have hf : firesB sandboxId st ev = false := by
      unfold firesB; simp [h]
    have hr1 : (logStep sandboxId st ev).resolverPresent = false := by
      rw [logStep_resolverPresent]; simp [h]
    have hc1 : (logStep sandboxId st ev).resolvedCount = st.resolvedCount := by
      rw [logStep_resolvedCount, hf]; simp
    have := ih (logStep sandboxId st ev) hr1
    rw [runLog_cons]
    exact ⟨this.1, by rw [this.2, hc1]⟩

/-- An already-initialized sandbox id suppresses the ready check. -/
theorem runLog_inert_of_contains (sandboxId : String) (evs : List (Option String))
    (st : WorkerState) (hc : st.initialized.contains sandboxId = true) :
    (runLog sandboxId st evs).resolvedCount = st.resolvedCount ∧
    (runLog sandboxId st evs).resolverPresent = st.resolverPresent := by
  induction evs generalizing st with
  | nil => exact ⟨rfl, rfl⟩
  | cons ev rest ih =>
    have hm : sandboxId ∈ st.initialized := by simpa using hc
    have hf : firesB sandboxId st ev = false := by
      unfold firesB; simp [hm]
    have hc1 : (logStep sandboxId st ev).resolvedCount = st.resolvedCount := by
      rw [logStep_resolvedCount, hf]; simp
    have hr1 : (logStep sandboxId st ev).resolverPresent = st.resolverPresent := by
      rw [logStep_resolverPresent, hf]; simp
    have hi1 : (logStep sandboxId st ev).initialized = st.initialized :=
      logStep_initialized sandboxId st ev
    have := ih (logStep sandboxId st ev) (by rw [hi1]; exact hc)
    rw [runLog_cons]
    exact ⟨by rw [this.1, hc1], by rw [this.2, hr1]⟩

/-- With a pending resolver and an uninitialized id, the loop either sees
no matching line and changes nothing in the readiness state, or fires
exactly once and clears the resolver. -/
theorem runLog_spec (sandboxId : String) (evs : List (Option String)) (st : WorkerState)
    (h1 : st.resolverPresent = true) (hc : st.initialized.contains sandboxId = false) :
    ((runLog sandboxId st evs).resolvedCount = st.resolvedCount ∧
     (runLog sandboxId st evs).resolverPresent = true ∧
     ¬ ∃ ev ∈ evs, matchEv ev) ∨
    ((runLog sandboxId st evs).resolvedCount = st.resolvedCount + 1 ∧
     (runLog sandboxId st evs).resolverPresent = false ∧
     ∃ ev ∈ evs, matchEv ev) := by
  induction evs generalizing st with
  | nil => exact Or.inl ⟨rfl, h1, by simp⟩
  | cons ev rest ih =>
    by_cases hf : firesB sandboxId st ev = true
    · right
      have hcnt : (logStep sandboxId st ev).resolvedCount = st.resolvedCount + 1 := by
        rw [logStep_resolvedCount, hf]; simp
      have hres : (logStep sandboxId st ev).resolverPresent = false := by
        rw [logStep_resolverPresent, hf]; simp
      have hfr := runLog_frozen sandboxId rest (logStep sandboxId st ev) hres
      rw [runLog_cons]
      refine ⟨by rw [hfr.2, hcnt], hfr.1, ⟨ev, by simp, ?_⟩⟩
      exact ((firesB_true_iff sandboxId st ev).mp hf).2.2
    · have hf' : firesB sandboxId st ev = false := by simpa using hf
      have hcnt : (logStep sandboxId st ev).resolvedCount = st.resolvedCount := by
        rw [logStep_resolvedCount, hf']; simp
      have hres : (logStep sandboxId st ev).resolverPresent = true := by
        rw [logStep_resolverPresent, hf']; simp [h1]
      have hnomatch : ¬ matchEv ev := by
        rintro ⟨l, hsl, hrl⟩
        exact hf ((firesB_true_iff sandboxId st ev).mpr ⟨h1, hc, l, hsl, hrl⟩)
      rw [runLog_cons]
      rcases ih (logStep sandboxId st ev)
          hres (by rw [logStep_initialized]; exact hc) with ⟨a, b, c⟩ | ⟨a, b, c⟩
      · refine Or.inl ⟨by rw [a, hcnt], b, ?_⟩
        rintro ⟨e, he, hm⟩
        rcases List.mem_cons.mp he with rfl | he'
        · exact hnomatch hm
        · exact c ⟨e, he', hm⟩
      · obtain ⟨e, he, hm⟩ := c
        exact Or.inr ⟨by rw [a, hcnt], b, ⟨e, List.mem_cons_of_mem _ he, hm⟩⟩

/-- C4: the log loop recognizes a ready signal exactly when a non-empty
trimmed line matches one of the patterns while the resolver is pending
and the id is not initialized; with a pending resolver and at most one
invocation: the first matching line invokes and clears the resolver, a
cleared resolver freezes the readiness state, and over any event stream
the resolver fires at most once, firing exactly when the id is
uninitialized and some line matches. -/
theorem c4_ready_signal (sandboxId : String) (st : WorkerState) (evs : List (Option String))
    (h1 : st.resolverPresent = true) (h2 : st.resolvedCount = 0) :
    (∀ st0 evData, ((logStep sandboxId st0 evData).resolvedCount ≠ st0.resolvedCount ↔
        (st0.resolverPresent = true ∧ st0.initialized.contains sandboxId = false ∧
         ∃ l, signalOf evData = some l ∧ isReadyLine l = true))) ∧
    (∀ st0 evData, st0.resolverPresent = false →
        (logStep sandboxId st0 evData).resolverPresent = false ∧
        (logStep sandboxId st0 evData).resolvedCount = st0.resolvedCount) ∧
    (runLog sandboxId st evs).resolvedCount ≤ 1 ∧
    ((runLog sandboxId st evs).resolvedCount = 1 ↔
      (st.initialized.contains sandboxId = false ∧
       ∃ evData ∈ evs, ∃ l, signalOf evData = some l ∧ isReadyLine l = true)) ∧
    ((runLog sandboxId st evs).resolverPresent = true ↔
      (runLog sandboxId st evs).resolvedCount = 0) := by
  have step1 : ∀ st0 evData, ((logStep sandboxId st0 evData).resolvedCount ≠ st0.resolvedCount ↔
      (st0.resolverPresent = true ∧ st0.initialized.contains sandboxId = false ∧
       ∃ l, signalOf evData = some l ∧ isReadyLine l = true)) := by
    intro st0 evData
    rw [← firesB_true_iff sandboxId st0 evData, logStep_resolvedCount]
    cases hf : firesB sandboxId st0 evData <;> simp [hf]
  have step2 : ∀ st0 evData, st0.resolverPresent = false →
      (logStep sandboxId st0 evData).resolverPresent = false ∧
      (logStep sandboxId st0 evData).resolvedCount = st0.resolvedCount := by
    intro st0 evData h0
    constructor
    · rw [logStep_resolverPresent]; simp [h0]
    · rw [logStep_resolvedCount]
      have : firesB sandboxId st0 evData = false := by unfold firesB; simp [h0]
      simp [this]
  refine ⟨step1, step2, ?_, ?_, ?_⟩
  · cases hc : st.initialized.contains sandboxId
    · rcases runLog_spec sandboxId evs st h1 hc with ⟨a, _, _⟩ | ⟨a, _, _⟩ <;> omega
    · have ha := (runLog_inert_of_contains sandboxId evs st hc).1
      omega
  · cases hc : st.initialized.contains sandboxId
    · rcases runLog_spec sandboxId evs st h1 hc with ⟨a, _, c⟩ | ⟨a, _, c⟩
      · constructor
        · intro hcount
          rw [a, h2] at hcount
          omega
        · rintro ⟨_, e, he, hl⟩
          exact absurd ⟨e, he, hl⟩ c
      · constructor
        · intro _
          exact ⟨rfl, c⟩
        · intro _
          rw [a, h2]
    · constructor
      · intro hcount
        rw [(runLog_inert_of_contains sandboxId evs st hc).1, h2] at hcount
        omega
      · rintro ⟨hfalse, _⟩
        simp at hfalse
  · cases hc : st.initialized.contains sandboxId
    · rcases runLog_spec sandboxId evs st h1 hc with ⟨a, b, _⟩ | ⟨a, b, _⟩ <;>
        rw [a, b, h2] <;> simp
    · have h3 := runLog_inert_of_contains sandboxId evs st hc
      rw [h3.1, h3.2, h1, h2]
      simp

/-- Witness for C4 on a concrete event stream holding two matching lines:
the resolver fires exactly once. -/
theorem c4_witness :
    (∀ st0 evData, ((logStep "a" st0 evData).resolvedCount ≠ st0.resolvedCount ↔
        (st0.resolverPresent = true ∧ st0.initialized.contains "a" = false ∧
         ∃ l, signalOf evData = some l ∧ isReadyLine l = true))) ∧
    (∀ st0 evData, st0.resolverPresent = false →
        (logStep "a" st0 evData).resolverPresent = false ∧
        (logStep "a" st0 evData).resolvedCount = st0.resolvedCount) ∧
    (runLog "a" demoReadySt demoEvs).resolvedCount ≤ 1 ∧
    ((runLog "a" demoReadySt demoEvs).resolvedCount = 1 ↔
      (demoReadySt.initialized.contains "a" = false ∧
       ∃ evData ∈ demoEvs, ∃ l, signalOf evData = some l ∧ isReadyLine l = true)) ∧
    ((runLog "a" demoReadySt demoEvs).resolverPresent = true ↔
      (runLog "a" demoReadySt demoEvs).resolvedCount = 0) :=
  c4_ready_signal "a" demoReadySt demoEvs rfl rfl

/- SSE stream lemmas. -/

/-- Splitting a from-zero frame range at a cursor position. -/
theorem framesRange_split (logs : List String) (m n : Nat) :
    framesRange logs 0 (m + n) = framesRange logs 0 m ++ framesRange logs m n := by
  unfold framesRange
  rw [List.range_add, List.map_append, List.map_map]
  simp [Function.comp]

/-- A frame at an index inside the prefix ignores the appended tail. -/
theorem frameAt_append (a t : List String) (i : Nat) (h : i < a.length) :
    frameAt (a ++ t) i = frameAt a i := by
  unfold frameAt
  rw [List.getD_eq_getElem?_getD, List.getD_eq_getElem?_getD, List.getElem?_append]
  simp [h]

/-- The frames of the prefix part agree before and after an append. -/
theorem framesRange_grow (a t : List String) :
    framesRange (a ++ t) 0 a.length = framesRange a 0 a.length := by
  unfold framesRange
  apply List.map_congr_left
  intro k hk
  have hk' : k < a.length := List.mem_range.mp hk
  simp only [Nat.zero_add]
  exact frameAt_append a t k hk'

/-- One poll against a grown buffer carries a caught-up stream state to
the caught-up state of the grown buffer. -/
theorem ssePoll_start (a b : List String) (h : a <+: b) :
    ssePoll (sseStart a) b = sseStart b := by
  obtain ⟨t, rfl⟩ := h
  by_cases hlt : t = []
  · subst hlt
    simp [ssePoll, sseStart]
  · have hlen : a.length < (a ++ t).length := by
      rw [List.length_append]
      have : 0 < t.length := List.length_pos.mpr hlt
      omega
    unfold ssePoll sseStart
    simp only [hlen, if_pos]
    have hsub : (a ++ t).length - a.length = t.length := by
      rw [List.length_append]; omega
    refine congrArg₂ SseState.mk rfl ?_
    rw [hsub]
    have := framesRange_split (a ++ t) a.length t.length
    rw [framesRange_grow a t] at this
    have hlen2 : (a ++ t).length = a.length + t.length := List.length_append a t
    rw [hlen2, this]

/-- `getLastD` steps over a cons cell. -/
theorem getLastD_cons' (l : List (List String)) (a d : List String) :
    (a :: l).getLastD d = l.getLastD a := by
  cases l <;> simp [List.getLastD]

/-- Run over a prefix-chain of buffer snapshots: the stream ends caught
up with the last snapshot, its emissions exactly the frames of that
snapshot in order. -/
theorem sseRun_eq_sseStart_last (logs0 : List String) (snaps : List (List String))
    (hchain : List.Chain' (fun a b => a <+: b) (logs0 :: snaps)) :
    sseRun logs0 snaps = sseStart (snaps.getLastD logs0) := by
  induction snaps generalizing logs0 with
  | nil => rfl
  | cons s rest ih =>
    have h1 : logs0 <+: s := (List.chain'_cons.mp hchain).1
    have h2 : List.Chain' (fun a b => a <+: b) (s :: rest) := (List.chain'_cons.mp hchain).2
    have hstep : sseRun logs0 (s :: rest) = sseRun s rest := by
      unfold sseRun
      rw [List.foldl_cons, ssePoll_start logs0 s h1]
    rw [hstep, ih s h2, getLastD_cons']

/-- C5: over any prefix-chain of buffer snapshots, the SSE stream first
emits every buffered line in order and then, polling each 500 ms tick,
emits each newly appended line exactly once, in order: the total
emission is exactly one `data: <json>\n\n` frame per final buffer index,
in index order, the json carrying the `vite:log` event, the line and its
index. -/
theorem c5_logs_stream_frames (logs0 : List String) (snaps : List (List String))
    (hchain : List.Chain' (fun a b => a <+: b) (logs0 :: snaps)) :
    (sseRun logs0 snaps).emitted =
      framesRange (snaps.getLastD logs0) 0 (snaps.getLastD logs0).length ∧
    (sseRun logs0 snaps).lastLogIndex = (snaps.getLastD logs0).length ∧
    (∀ logs i, frameAt logs i = "data: " ++ logFrameJson (logs.getD i "") i ++ "\n\n") ∧
    pollIntervalMs = 500 := by
  have h := sseRun_eq_sseStart_last logs0 snaps hchain
  refine ⟨?_, ?_, fun logs i => rfl, rfl⟩
  · rw [h]; rfl
  · rw [h]; rfl

/-- Witness for C5 on a concrete growing buffer. -/
theorem c5_witness :
    (sseRun ["boot"] [["boot", "ready"], ["boot", "ready", "served"]]).emitted =
      framesRange ([["boot", "ready"], ["boot", "ready", "served"]].getLastD ["boot"]) 0
        ([["boot", "ready"], ["boot", "ready", "served"]].getLastD ["boot"]).length ∧
    (sseRun ["boot"] [["boot", "ready"], ["boot", "ready", "served"]]).lastLogIndex =
      ([["boot", "ready"], ["boot", "ready", "served"]].getLastD ["boot"]).length ∧
    (∀ logs i, frameAt logs i = "data: " ++ logFrameJson (logs.getD i "") i ++ "\n\n") ∧
    pollIntervalMs = 500 :=
  c5_logs_stream_frames ["boot"] [["boot", "ready"], ["boot", "ready", "served"]]
    (List.chain'_cons.mpr ⟨⟨["ready"], rfl⟩,
      List.chain'_cons.mpr ⟨⟨["served"], rfl⟩, List.chain'_singleton _⟩⟩)

/- Monotonicity lemmas. -/

/-- Prefix order is transitive. -/
theorem prefTrans {a b c : List String} (h1 : a <+: b) (h2 : b <+: c) : a <+: c := by
  obtain ⟨t1, rfl⟩ := h1
  obtain ⟨t2, rfl⟩ := h2
  exact ⟨t1 ++ t2, by simp⟩

/-- Adding to the JS `Set` keeps every present element. -/
theorem subset_addId (l : List String) (id : String) : l ⊆ addId l id := by
  unfold addId
  split
  · exact fun x hx => hx
  · exact fun x hx => List.mem_append_left _ hx

/-- The ws-url handler never touches the log buffer and only grows the
initialized set. -/
theorem wsUrlHandler_state_mono (st : WorkerState) (origin sandboxId : String)
    (sdk : SdkOracle) (wo : WaitOutcome) :
    (wsUrlHandler st origin sandboxId sdk wo).1.processLogs = st.processLogs ∧
    st.initialized ⊆ (wsUrlHandler st origin sandboxId sdk wo).1.initialized := by
  cases hls : sdk.listProcesses with
  | error e => simp [wsUrlHandler, hls]
  | ok ps =>
    cases hf : ps.find? viteProcPred with
    | some q =>
      refine ⟨?_, ?_⟩
      · simp [wsUrlHandler, hls, hf]
      · simp only [wsUrlHandler, hls, hf]
        exact subset_addId st.initialized sandboxId
    | none =>
      cases hp : (initPipeline sdk sandboxId).2 with
      | error e => simp [wsUrlHandler, hls, hf, hp]
      | ok u =>
        refine ⟨?_, ?_⟩
        · simp [wsUrlHandler, hls, hf, hp]
        · simp only [wsUrlHandler, hls, hf, hp]
          exact subset_addId st.initialized sandboxId

/-- The fetch handler never touches the log buffer and only grows the
initialized set. -/
theorem fetchHandler_state_mono (st : WorkerState) (req : Request) (fenv : FetchEnv) :
    (fetchHandler st req fenv).1.processLogs = st.processLogs ∧
    st.initialized ⊆ (fetchHandler st req fenv).1.initialized := by
  cases hpx : fenv.proxy with
  | some r => simp [fetchHandler, hpx]
  | none =>
    cases hr : matchRoute req.method req.path with
    | wsUrl id =>
      have h := wsUrlHandler_state_mono st req.origin id fenv.sdk fenv.waitOutcome
      refine ⟨?_, ?_⟩
      · simp only [fetchHandler, hpx, hr]
        exact h.1
      · simp only [fetchHandler, hpx, hr]
        exact h.2
    | root => simp [fetchHandler, hpx, hr]
    | testHmr id => simp [fetchHandler, hpx, hr]
    | logsStream id => simp [fetchHandler, hpx, hr]
    | preview id sub =>
      cases hcf : fenv.containerFetch with
      | error e => simp [fetchHandler, hpx, hr, hcf]
      | ok r => simp [fetchHandler, hpx, hr, hcf]
    | notFound => simp [fetchHandler, hpx, hr]

/-- One log-loop iteration only appends to the buffer and never touches
the initialized set. -/
theorem logStep_state_mono (sandboxId : String) (st : WorkerState) (evData : Option String) :
    st.processLogs <+: (logStep sandboxId st evData).processLogs ∧
    st.initialized ⊆ (logStep sandboxId st evData).initialized := by
  constructor
  · cases evData with
    | none => exact ⟨[], by simp [logStep]⟩
    | some d =>
      by_cases he : jsTrim d = ""
      · exact ⟨[], by simp [logStep, he]⟩
      · refine ⟨[jsTrim d], ?_⟩
        simp only [logStep, he]
        split_ifs <;> simp_all
  · rw [logStep_initialized]
    exact fun x hx => hx

/-- C8: over any interleaving of handled requests and log-loop
iterations, the worker state is monotone: the log buffer only ever grows
at the end (the starting buffer stays a prefix, so streamed indices stay
valid) and the initialized set only gains members. -/
theorem c8_monotone_state (st : WorkerState) (evts : List WorkerEvent) :
    st.processLogs <+: (evts.foldl applyEvent st).processLogs ∧
    st.initialized ⊆ (evts.foldl applyEvent st).initialized := by
  induction evts generalizing st with
  | nil => exact ⟨⟨[], by simp⟩, fun x hx => hx⟩
  | cons e rest ih =>
    have hstep : st.processLogs <+: (applyEvent st e).processLogs ∧
        st.initialized ⊆ (applyEvent st e).initialized := by
      cases e with
      | request req fenv =>
        have h := fetchHandler_state_mono st req fenv
        exact ⟨by rw [applyEvent, h.1], h.2⟩
      | log sandboxId evData => exact logStep_state_mono sandboxId st evData
    have hrest := ih (applyEvent st e)
    rw [List.foldl_cons]
    exact ⟨prefTrans hstep.1 hrest.1, fun x hx => hrest.2 (hstep.2 hx)⟩

/-- C10: the test-hmr route takes `body.count || 0` (missing, null and
zero all give 0), writes a `main.js` interpolating exactly that count
twice, and answers 200 `success: true` with the count; when body parsing
or the write throws it answers 500 `success: false` with the error. -/
theorem c10_test_hmr (sdk : SdkOracle) (body : Except String HmrBody) :
    (∀ b, body = Except.ok b →
      ((testHmrHandler sdk body).1 =
        [SdkCall.writeFile "/workspace/main.js" (newMainJs (jsOrZero b.count))] ∧
      (∀ u, sdk.writeFile "/workspace/main.js" (newMainJs (jsOrZero b.count)) = Except.ok u →
        (testHmrHandler sdk body).2 =
          { status := 200,
            body := RespBody.json
              [("success", JVal.b true), ("count", JVal.i (jsOrZero b.count)),
               ("message", JVal.s "main.js updated, HMR should trigger")] }) ∧
      (∀ e, sdk.writeFile "/workspace/main.js" (newMainJs (jsOrZero b.count)) = Except.error e →
        (testHmrHandler sdk body).2 =
          { status := 500,
            body := RespBody.json [("success", JVal.b false), ("error", JVal.s e)] }))) ∧
    (∀ e, body = Except.error e →
      testHmrHandler sdk body =
        ([], { status := 500,
               body := RespBody.json [("success", JVal.b false), ("error", JVal.s e)] })) ∧
    jsOrZero none = 0 ∧ jsOrZero (some 0) = 0 ∧
    (∀ v : Int, v ≠ 0 → jsOrZero (some v) = v) ∧
    (∀ c : Int, newMainJs c =
      mainJsPart1 ++ toString c ++ mainJsPart2 ++ toString c ++ mainJsPart3) := by
  refine ⟨?_, ?_, rfl, rfl, ?_, fun c => rfl⟩
  · rintro b rfl
    refine ⟨?_, ?_, ?_⟩
    · cases hw : sdk.writeFile "/workspace/main.js" (newMainJs (jsOrZero b.count)) <;>
        simp [testHmrHandler, hw]
    · intro u hw
      simp [testHmrHandler, hw]
    · intro e hw
      simp [testHmrHandler, hw]
  · rintro e rfl
    rfl
  · intro v hv
    simp [jsOrZero, hv]

/-- Witness for C10: a body with count 5 over the all-success oracle
yields the 200 response embedding 5. -/
theorem c10_witness :
    (testHmrHandler okSdk (Except.ok { count := some 5 })).2 =
      { status := 200,
        body := RespBody.json
          [("success", JVal.b true), ("count", JVal.i (jsOrZero (some 5))),
           ("message", JVal.s "main.js updated, HMR should trigger")] } :=
  (((c10_test_hmr okSdk (Except.ok { count := some 5 })).1
    { count := some 5 } rfl).2.1) () rfl
